import Mathlib

/-!
Verification of the simplebank funds-transfer core and its HTTP/query layer.

The data model (`Account`, `Transfer`, `Entry`) and the query
`ListTranfers` are embedded from the repository's SQL and Go sources
(`db/query/transfer.sql`, `api/transfer.go`, `api/user.go`).  The store
transaction `TransferMoney` (the `CreateTransferTx` implementation) is not
present in the provided sources — only its mock-based tests and API callers
are — so it is modelled from the spec, as marked on its definition.
Machine-integer arithmetic that can overflow (the Go `int32` offset
computation in the list-transfers handler) is modelled with explicit
wrap-around.
-/

namespace SimpleBank

/-- Embeds `db.Account` (accounts table row: id, owner, balance, currency).
Timestamps are omitted: no claim mentions them. -/
structure Account where
  ID : Int
  Owner : String
  Balance : Int
  Currency : String
deriving DecidableEq

/-- Embeds `db.Transfer` (transfers table row). -/
structure Transfer where
  ID : Int
  FromAccountID : Int
  ToAccountID : Int
  Amount : Int
deriving DecidableEq

/-- Embeds `db.Entry` (entries table row). -/
structure Entry where
  ID : Int
  AccountID : Int
  Amount : Int
deriving DecidableEq

/-- The relational state the transfer path touches: the three tables. -/
structure DB where
  accounts : List Account
  transfers : List Transfer
  entries : List Entry
deriving DecidableEq

/-- `GetAccount` row lookup: `SELECT * FROM accounts WHERE id = $1`.
`none` models `sql.ErrNoRows`. -/
def findAccount (db : DB) (id : Int) : Option Account :=
  db.accounts.find? (fun a => a.ID == id)

/-- `AddAccountBalance`: the atomic delta update
`UPDATE accounts SET balance = balance + $1 WHERE id = $2`. -/
def addAccountBalance (accs : List Account) (id delta : Int) : List Account :=
  accs.map (fun a => if a.ID == id then { a with Balance := a.Balance + delta } else a)

/-- Embeds `db.ListTranfersParams` (`FromAccountID`, `ToAccountID` int64;
`Limit`, `Offset` int32). -/
structure ListTranfersParams where
  FromAccountID : Int
  ToAccountID : Int
  Limit : Int
  Offset : Int
deriving DecidableEq

/-- The WHERE clause of `ListTranfers` (db/query/transfer.sql):
`CASE WHEN $from != 0 THEN from_account_id = $from ELSE TRUE END` and the
same for `to_account_id`: a zero filter value matches any row. -/
def transferMatches (p : ListTranfersParams) (t : Transfer) : Bool :=
  (if p.FromAccountID ≠ 0 then t.FromAccountID == p.FromAccountID else true) &&
  (if p.ToAccountID ≠ 0 then t.ToAccountID == p.ToAccountID else true)

/-- The `ORDER BY id` relation used by `ListTranfers`. -/
def transferLE (a b : Transfer) : Prop := a.ID ≤ b.ID

instance : DecidableRel transferLE := fun a b => Int.decLe a.ID b.ID

instance : IsTotal Transfer transferLE := ⟨fun a b => Int.le_total a.ID b.ID⟩

instance : IsTrans Transfer transferLE := ⟨fun _ _ _ h h' => Int.le_trans h h'⟩

/-- Embeds the `ListTranfers` query (db/query/transfer.sql): filter the
transfers table by the two optional account filters, sort by id
(`ORDER BY id`), then apply `OFFSET` and `LIMIT`. -/
def ListTranfers (rows : List Transfer) (p : ListTranfersParams) : List Transfer :=
  ((List.insertionSort transferLE (rows.filter (transferMatches p))).drop
      p.Offset.toNat).take p.Limit.toNat

/-- The taxonomy of store errors (spec §7). -/
inductive TxError where
  | InvalidArgument
  | NotFound
  | TransactionError
  | Internal
deriving DecidableEq

/-- Embeds `db.CreateTransferTxResult`: the five-part aggregate
`{Transfer, FromAccount, ToAccount, FromEntry, ToEntry}` (declared in the
mock expectations of TestCreateTransferAPI). -/
structure TransferTxResult where
  transfer : Transfer
  fromAccount : Account
  toAccount : Account
  fromEntry : Entry
  toEntry : Entry
deriving DecidableEq

/-- Modelled from the spec: the lock-acquisition / balance-update sequence of
`TransferMoney` (spec §4.1, implementation not under the provided sources).
"If `fromAccountID < toAccountID`, lock and update `from` then `to`;
otherwise lock and update `to` then `from`"; each pair is
(account id, balance delta). -/
def updateSeq (fromID toID amount : Int) : List (Int × Int) :=
  if fromID < toID then [(fromID, -amount), (toID, amount)]
  else [(toID, amount), (fromID, -amount)]

/-- Modelled from the spec: `TransferMoney` / `CreateTransferTx` (spec §4.1;
the store implementation is not under the provided sources, only its tests
and callers).  Validates `amount > 0` and distinct ids before any
transactional work, looks up both accounts (absence propagates `NotFound`),
inserts the Transfer row, the two Entry rows (`-amount` for the source,
`+amount` for the destination), and applies the balance deltas in the
`updateSeq` order.  Returns the result (or error) together with the
post-operation database; on error the database is returned unchanged
(full rollback: no partial state). -/
def TransferMoney (db : DB) (fromID toID amount : Int) :
    Except TxError TransferTxResult × DB :=
  if amount ≤ 0 ∨ fromID = toID then (.error .InvalidArgument, db)
  else
    match findAccount db fromID, findAccount db toID with
    | some fa, some ta =>
      let transfer : Transfer :=
        { ID := db.transfers.length + 1, FromAccountID := fromID,
          ToAccountID := toID, Amount := amount }
      let fromEntry : Entry :=
        { ID := db.entries.length + 1, AccountID := fromID, Amount := -amount }
      let toEntry : Entry :=
        { ID := db.entries.length + 2, AccountID := toID, Amount := amount }
      let accs := (updateSeq fromID toID amount).foldl
        (fun l pr => addAccountBalance l pr.1 pr.2) db.accounts
      let db' : DB :=
        { accounts := accs, transfers := db.transfers ++ [transfer],
          entries := db.entries ++ [fromEntry, toEntry] }
      (.ok { transfer := transfer,
             fromAccount := { fa with Balance := fa.Balance - amount },
             toAccount := { ta with Balance := ta.Balance + amount },
             fromEntry := fromEntry, toEntry := toEntry }, db')
    | _, _ => (.error .NotFound, db)

/-- HTTP statuses produced by the api handlers (api/transfer.go,
api/user.go). -/
inductive HandlerStatus where
  | ok
  | badRequest
  | notFound
  | forbidden
  | internalError
deriving DecidableEq

/-- Outcome of `Server.validAccount` (api/transfer.go): the account row is
looked up; `sql.ErrNoRows` yields 404, a currency mismatch yields 400,
otherwise the account is valid. -/
inductive ValidAccountRes where
  | valid
  | notFound
  | currencyMismatch
deriving DecidableEq

/-- Embeds `Server.validAccount` (api/transfer.go): `GetAccount`, then
`sql.ErrNoRows` → NotFound, `account.Currency != currency` → mismatch. -/
def validAccount (db : DB) (accountID : Int) (currency : String) : ValidAccountRes :=
  match findAccount db accountID with
  | none => .notFound
  | some a => if a.Currency = currency then .valid else .currencyMismatch

/-- Embeds `createTransferRequest` (api/transfer.go): `from_account_id`
(int64, binding required,min=1), `to_account_id` (same), `amount` (int64,
binding required,gt=0), `currency` (binding required,currency). -/
structure CreateTransferRequest where
  FromAccountID : Int
  ToAccountID : Int
  Amount : Int
  Currency : String
deriving DecidableEq

/-- The gin binding check of `createTransferRequest`: `required,min=1` on an
int64 accepts exactly the values ≥ 1, `required,gt=0` exactly the values
> 0, and the `currency` validator (api/validator.go) is the supplied
`supported` predicate (`util.IsCurrencySupported`, outside the provided
sources). -/
def bindCreateTransfer (supported : String → Bool) (req : CreateTransferRequest) : Prop :=
  1 ≤ req.FromAccountID ∧ 1 ≤ req.ToAccountID ∧ 0 < req.Amount ∧ supported req.Currency

instance (supported : String → Bool) (req : CreateTransferRequest) :
    Decidable (bindCreateTransfer supported req) :=
  inferInstanceAs (Decidable (_ ∧ _ ∧ _ ∧ _))

/-- Embeds `Server.createTransfer` (api/transfer.go): bind the request
(failure → 400 before any store call), validate the source then the
destination account (`&&` short-circuit: the destination is only checked
when the source is valid), then call the store `CreateTransferTx`.  The
result triple is (HTTP status, post-request database, whether the store
transaction was invoked). -/
def createTransferHandler (supported : String → Bool) (db : DB)
    (req : CreateTransferRequest) : HandlerStatus × DB × Bool :=
  if ¬ bindCreateTransfer supported req then (.badRequest, db, false)
  else
    match validAccount db req.FromAccountID req.Currency with
    | .notFound => (.notFound, db, false)
    | .currencyMismatch => (.badRequest, db, false)
    | .valid =>
      match validAccount db req.ToAccountID req.Currency with
      | .notFound => (.notFound, db, false)
      | .currencyMismatch => (.badRequest, db, false)
      | .valid =>
        match TransferMoney db req.FromAccountID req.ToAccountID req.Amount with
        | (.ok _, db') => (.ok, db', true)
        | (.error _, db') => (.internalError, db', true)

/-- Signed 32-bit wrap-around: the value a Go `int32` holds after an
arithmetic operation whose mathematical result is `n`. -/
def wrap32 (n : Int) : Int := (n + 2 ^ 31) % 2 ^ 32 - 2 ^ 31

/-- Embeds `listTransfersRequest` (api/transfer.go): optional
`from_account_id` / `to_account_id` (int64, no binding: absent means 0),
`page_id` (int32, binding required,min=1), `page_size` (int32, binding
required,min=5,max=10). -/
structure ListTransfersRequest where
  FromAccountID : Int
  ToAccountID : Int
  PageID : Int
  PageSize : Int
deriving DecidableEq

/-- The gin binding check of `listTransfersRequest`: `required,min=1` on
`page_id` accepts exactly the values ≥ 1, `required,min=5,max=10` on
`page_size` exactly 5..10. -/
def bindListTransfers (req : ListTransfersRequest) : Prop :=
  1 ≤ req.PageID ∧ 5 ≤ req.PageSize ∧ req.PageSize ≤ 10

instance (req : ListTransfersRequest) : Decidable (bindListTransfers req) :=
  inferInstanceAs (Decidable (_ ∧ _ ∧ _))

/-- Embeds `Server.listTransfers` (api/transfer.go): bind the request
(failure → 400, store never queried), then query `ListTranfers` with
`Limit = page_size` and `Offset = (page_id - 1) * page_size` computed in Go
`int32` arithmetic (each operation wraps).  The result triple is
(HTTP status, the store query parameters when the store was queried, the
response body). -/
def listTransfersHandler (rows : List Transfer) (req : ListTransfersRequest) :
    HandlerStatus × Option ListTranfersParams × List Transfer :=
  if ¬ bindListTransfers req then (.badRequest, none, [])
  else
    let p : ListTranfersParams :=
      { FromAccountID := req.FromAccountID, ToAccountID := req.ToAccountID,
        Limit := req.PageSize,
        Offset := wrap32 (wrap32 (req.PageID - 1) * req.PageSize) }
    (.ok, some p, ListTranfers rows p)

/-- Errors a store call can surface to a handler: `sql.ErrNoRows`,
`sql.ErrConnDone`, or a `pq.Error` carrying its driver-specific error code
name (`pqErr.Code.Name()`). -/
inductive DBError where
  | noRows
  | connDone
  | pq (codeName : String)
deriving DecidableEq

/-- Embeds the error branch of `Server.createUser` (api/user.go): the error
is cast to `*pq.Error` and its driver code name is switched on —
`"unique_validation"` → 403 Forbidden; every other error → 500.  The
response carries the original error unchanged (`errorResponse(err)`). -/
def createUserErrorResponse (e : DBError) : HandlerStatus × DBError :=
  match e with
  | .pq codeName =>
    if codeName = "unique_validation" then (.forbidden, e) else (.internalError, e)
  | _ => (.internalError, e)

/-- Embeds the error branch of `Server.getTransfer` (api/transfer.go):
`err == sql.ErrNoRows` → 404, anything else → 500; the response carries the
original error unchanged. -/
def getTransferErrorResponse (e : DBError) : HandlerStatus × DBError :=
  match e with
  | .noRows => (.notFound, e)
  | _ => (.internalError, e)

instance exceptDecidableEq {ε α : Type} [DecidableEq ε] [DecidableEq α] :
    DecidableEq (Except ε α) := fun a b =>
  match a, b with
  | .error e, .error f => decidable_of_iff (e = f) (by simp)
  | .error _, .ok _ => .isFalse (by simp)
  | .ok _, .error _ => .isFalse (by simp)
  | .ok x, .ok y => decidable_of_iff (x = y) (by simp)

/-- `addAccountBalance` leaves the lookup of a different id unchanged. -/
lemma find?_addAccountBalance_ne (l : List Account) (id delta j : Int) (h : j ≠ id) :
    (addAccountBalance l id delta).find? (fun a => a.ID == j) =
      l.find? (fun a => a.ID == j) := by
  induction l with
  | nil => rfl
  | cons a l ih =>
    have hcons : addAccountBalance (a :: l) id delta =
        (if a.ID == id then { a with Balance := a.Balance + delta } else a) ::
          addAccountBalance l id delta := rfl
    rw [hcons]
    by_cases hj : (a.ID == j) = true
    · have haid : ¬ (a.ID == id) = true := by
        simp only [beq_iff_eq] at hj ⊢
        rw [hj]
        exact h
      rw [if_neg haid,
        @List.find?_cons_of_pos _ (fun x : Account => x.ID == j) a
          (addAccountBalance l id delta) hj,
        @List.find?_cons_of_pos _ (fun x : Account => x.ID == j) a l hj]
    · have hhead :
          ¬ ((fun (x : Account) => x.ID == j)
              (if a.ID == id then { a with Balance := a.Balance + delta } else a)) = true := by
        split <;> exact hj
      rw [@List.find?_cons_of_neg _ (fun x : Account => x.ID == j) _
          (addAccountBalance l id delta) hhead,
        @List.find?_cons_of_neg _ (fun x : Account => x.ID == j) a l hj]
      exact ih

/-- `addAccountBalance` turns the looked-up account's balance into
`balance + delta` and changes nothing else about it. -/
lemma find?_addAccountBalance_eq (l : List Account) (id delta : Int) (a : Account)
    (h : l.find? (fun x => x.ID == id) = some a) :
    (addAccountBalance l id delta).find? (fun x => x.ID == id) =
      some { a with Balance := a.Balance + delta } := by
  induction l with
  | nil => rw [List.find?_nil] at h; cases h
  | cons b l ih =>
    have hcons : addAccountBalance (b :: l) id delta =
        (if b.ID == id then { b with Balance := b.Balance + delta } else b) ::
          addAccountBalance l id delta := rfl
    rw [hcons]
    by_cases hb : (b.ID == id) = true
    · rw [@List.find?_cons_of_pos _ (fun x : Account => x.ID == id) b l hb] at h
      cases h
      rw [if_pos hb]
      exact @List.find?_cons_of_pos _ (fun x : Account => x.ID == id) _
        (addAccountBalance l id delta) hb
    · rw [@List.find?_cons_of_neg _ (fun x : Account => x.ID == id) b l hb] at h
      rw [if_neg hb,
        @List.find?_cons_of_neg _ (fun x : Account => x.ID == id) b
          (addAccountBalance l id delta) hb]
      exact ih h

/-- Folding `updateSeq` over the accounts table: the source account ends with
balance decreased by `amount`, whichever lock order was taken. -/
lemma find?_updateSeq_from (accs : List Account) (f t amount : Int) (fa : Account)
    (hne : f ≠ t) (hf : accs.find? (fun x => x.ID == f) = some fa) :
    ((updateSeq f t amount).foldl (fun l pr => addAccountBalance l pr.1 pr.2)
        accs).find? (fun x => x.ID == f) =
      some { fa with Balance := fa.Balance - amount } := by
  by_cases hlt : f < t
  · simp only [updateSeq, if_pos hlt, List.foldl_cons, List.foldl_nil]
    rw [find?_addAccountBalance_ne _ _ _ _ hne, find?_addAccountBalance_eq _ _ _ _ hf,
      sub_eq_add_neg]
  · simp only [updateSeq, if_neg hlt, List.foldl_cons, List.foldl_nil]
    rw [find?_addAccountBalance_eq, sub_eq_add_neg]
    rw [find?_addAccountBalance_ne _ _ _ _ hne]
    exact hf

/-- Folding `updateSeq` over the accounts table: the destination account ends
with balance increased by `amount`, whichever lock order was taken. -/
lemma find?_updateSeq_to (accs : List Account) (f t amount : Int) (ta : Account)
    (hne : f ≠ t) (ht : accs.find? (fun x => x.ID == t) = some ta) :
    ((updateSeq f t amount).foldl (fun l pr => addAccountBalance l pr.1 pr.2)
        accs).find? (fun x => x.ID == t) =
      some { ta with Balance := ta.Balance + amount } := by
  by_cases hlt : f < t
  · simp only [updateSeq, if_pos hlt, List.foldl_cons, List.foldl_nil]
    rw [find?_addAccountBalance_eq]
    rw [find?_addAccountBalance_ne _ _ _ _ (fun hh => hne hh.symm)]
    exact ht
  · simp only [updateSeq, if_neg hlt, List.foldl_cons, List.foldl_nil]
    rw [find?_addAccountBalance_ne _ _ _ _ (fun hh => hne hh.symm),
      find?_addAccountBalance_eq _ _ _ _ ht]

/-- Shape of a successful `TransferMoney`: the exact result aggregate and the
exact post-operation database. -/
lemma transferMoney_eq (db : DB) (f t amount : Int) (fa ta : Account)
    (ha : 0 < amount) (hne : f ≠ t)
    (hf : findAccount db f = some fa) (ht : findAccount db t = some ta) :
    TransferMoney db f t amount =
      (.ok { transfer := ⟨db.transfers.length + 1, f, t, amount⟩,
             fromAccount := { fa with Balance := fa.Balance - amount },
             toAccount := { ta with Balance := ta.Balance + amount },
             fromEntry := ⟨db.entries.length + 1, f, -amount⟩,
             toEntry := ⟨db.entries.length + 2, t, amount⟩ },
       { accounts := (updateSeq f t amount).foldl
            (fun l pr => addAccountBalance l pr.1 pr.2) db.accounts,
         transfers := db.transfers ++ [⟨db.transfers.length + 1, f, t, amount⟩],
         entries := db.entries ++
           [⟨db.entries.length + 1, f, -amount⟩,
            ⟨db.entries.length + 2, t, amount⟩] }) := by
  have hval : ¬ (amount ≤ 0 ∨ f = t) := by
    push_neg
    exact ⟨ha, hne⟩
  unfold TransferMoney
  rw [if_neg hval, hf, ht]

/-- Propositional reading of the two optional filters of `ListTranfers`:
a zero filter matches any transfer, a nonzero filter matches exactly the
transfers with that account id. -/
def matchesProp (p : ListTranfersParams) (t : Transfer) : Prop :=
  (p.FromAccountID = 0 ∨ t.FromAccountID = p.FromAccountID) ∧
  (p.ToAccountID = 0 ∨ t.ToAccountID = p.ToAccountID)

instance (p : ListTranfersParams) (t : Transfer) : Decidable (matchesProp p t) :=
  inferInstanceAs (Decidable (_ ∧ _))

/-- The boolean WHERE clause computes exactly the propositional filter
semantics. -/
lemma transferMatches_iff (p : ListTranfersParams) (t : Transfer) :
    transferMatches p t = true ↔ matchesProp p t := by
  by_cases h1 : p.FromAccountID = 0 <;> by_cases h2 : p.ToAccountID = 0 <;>
    simp [transferMatches, matchesProp, h1, h2]

/-- A Go `int32` already holding a value in range is unchanged by the
wrap. -/
lemma wrap32_eq_self (x : Int) (h0 : 0 ≤ x) (h1 : x < 2 ^ 31) : wrap32 x = x := by
  unfold wrap32
  omega

/-- Example accounts for the spec's worked example: A holds 100, B holds 50,
same currency. -/
def accA : Account := { ID := 1, Owner := "alice", Balance := 100, Currency := "EUR" }

/-- Second example account. -/
def accB : Account := { ID := 2, Owner := "bob", Balance := 50, Currency := "EUR" }

/-- Example database holding exactly accounts A and B and no transfer or
entry rows. -/
def dbEx : DB := { accounts := [accA, accB], transfers := [], entries := [] }

/-- Example currency validator: only EUR is supported. -/
def supEx (c : String) : Bool := c == "EUR"

/-- Example transfers table rows. -/
def rowsEx : List Transfer :=
  [{ ID := 3, FromAccountID := 1, ToAccountID := 2, Amount := 5 },
   { ID := 1, FromAccountID := 2, ToAccountID := 1, Amount := 7 },
   { ID := 2, FromAccountID := 1, ToAccountID := 3, Amount := 9 }]

/-- C1: for every valid transfer (distinct existing accounts, positive
amount), `TransferMoney` returns the source account with its balance
decreased by exactly `amount` and the destination account with its balance
increased by exactly `amount`, and the post-operation database agrees with
the returned accounts. -/
theorem transferMoney_moves_amount (db : DB) (f t amount : Int) (fa ta : Account)
    (ha : 0 < amount) (hne : f ≠ t)
    (hf : findAccount db f = some fa) (ht : findAccount db t = some ta) :
    ((TransferMoney db f t amount).1.toOption.map
        fun r => (r.fromAccount.Balance, r.toAccount.Balance)) =
      some (fa.Balance - amount, ta.Balance + amount) ∧
    findAccount (TransferMoney db f t amount).2 f =
      some { fa with Balance := fa.Balance - amount } ∧
    findAccount (TransferMoney db f t amount).2 t =
      some { ta with Balance := ta.Balance + amount } := by
  rw [transferMoney_eq db f t amount fa ta ha hne hf ht]
  refine ⟨rfl, ?_, ?_⟩
  · exact find?_updateSeq_from db.accounts f t amount fa hne hf
  · exact find?_updateSeq_to db.accounts f t amount ta hne ht

/-- C1 witness: transferring 30 from account A (balance 100) to account B
(balance 50) yields balances 70 and 80. -/
theorem transferMoney_moves_amount_witness :
    (0 : Int) < 30 ∧ (1 : Int) ≠ 2 ∧
    findAccount dbEx 1 = some accA ∧ findAccount dbEx 2 = some accB ∧
    ((TransferMoney dbEx 1 2 30).1.toOption.map
        fun r => (r.fromAccount.Balance, r.toAccount.Balance)) = some (70, 80) := by
  have h := transferMoney_moves_amount dbEx 1 2 30 accA accB
    (by decide) (by decide) (by decide) (by decide)
  exact ⟨by decide, by decide, by decide, by decide, h.1⟩

/-- C2: every committed transfer appends exactly two entries to the entries
table: one for the source account with amount `-amount` and one for the
destination with `+amount`; their amounts sum to zero and their account ids
equal the created transfer's source and destination ids. -/
theorem transferMoney_creates_offsetting_entries (db : DB) (f t amount : Int)
    (fa ta : Account) (ha : 0 < amount) (hne : f ≠ t)
    (hf : findAccount db f = some fa) (ht : findAccount db t = some ta) :
    ∃ e1 e2 : Entry,
      (TransferMoney db f t amount).2.entries = db.entries ++ [e1, e2] ∧
      e1.AccountID = f ∧ e1.Amount = -amount ∧
      e2.AccountID = t ∧ e2.Amount = amount ∧
      e1.Amount + e2.Amount = 0 ∧
      ((TransferMoney db f t amount).1.toOption.map
          fun r => (r.transfer.FromAccountID, r.transfer.ToAccountID)) =
        some (f, t) := by
  rw [transferMoney_eq db f t amount fa ta ha hne hf ht]
  exact ⟨_, _, rfl, rfl, rfl, rfl, rfl, by show -amount + amount = 0; omega, rfl⟩

/-- C2 witness: the example transfer of 30 from account 1 to account 2
creates exactly the entries (1, -30) and (2, 30). -/
theorem transferMoney_creates_offsetting_entries_witness :
    (0 : Int) < 30 ∧ (1 : Int) ≠ 2 ∧
    findAccount dbEx 1 = some accA ∧ findAccount dbEx 2 = some accB ∧
    ∃ e1 e2 : Entry,
      (TransferMoney dbEx 1 2 30).2.entries = dbEx.entries ++ [e1, e2] ∧
      e1.AccountID = 1 ∧ e1.Amount = -30 ∧
      e2.AccountID = 2 ∧ e2.Amount = 30 ∧
      e1.Amount + e2.Amount = 0 ∧
      ((TransferMoney dbEx 1 2 30).1.toOption.map
          fun r => (r.transfer.FromAccountID, r.transfer.ToAccountID)) =
        some (1, 2) := by
  have h := transferMoney_creates_offsetting_entries dbEx 1 2 30 accA accB
    (by decide) (by decide) (by decide) (by decide)
  exact ⟨by decide, by decide, by decide, by decide, h⟩

/-- C3: a transfer request with a non-positive amount or equal source and
destination ids fails with `InvalidArgument` and the database is returned
untouched: no transaction is opened and no rows are created. -/
theorem transferMoney_invalid_argument (db : DB) (f t amount : Int)
    (h : amount ≤ 0 ∨ f = t) :
    TransferMoney db f t amount = (.error .InvalidArgument, db) := by
  unfold TransferMoney
  rw [if_pos h]

/-- C3 witness: transferring 10 from account 1 to itself fails with
`InvalidArgument` and leaves the example database unchanged. -/
theorem transferMoney_invalid_argument_witness :
    ((10 : Int) ≤ 0 ∨ (1 : Int) = 1) ∧
    TransferMoney dbEx 1 1 10 = (.error .InvalidArgument, dbEx) :=
  ⟨Or.inr rfl, transferMoney_invalid_argument dbEx 1 1 10 (Or.inr rfl)⟩

/-- C4: for a bound transfer request where the source account id does not
exist, or the source is valid and the destination account id does not
exist, the create-transfer handler responds NotFound, never invokes the
store transaction, and leaves the database (hence every row and every
balance) unchanged. -/
theorem createTransfer_handler_notFound (supported : String → Bool) (db : DB)
    (req : CreateTransferRequest) (hbind : bindCreateTransfer supported req)
    (hmiss : findAccount db req.FromAccountID = none ∨
      (∃ a, findAccount db req.FromAccountID = some a ∧ a.Currency = req.Currency ∧
        findAccount db req.ToAccountID = none)) :
    createTransferHandler supported db req = (.notFound, db, false) := by
  unfold createTransferHandler
  rw [if_neg (not_not_intro hbind)]
  rcases hmiss with hnone | ⟨a, hsome, hcur, hnone⟩
  · simp [validAccount, hnone]
  · simp [validAccount, hsome, hnone, hcur]

/-- Example request: from existing account 1 to the missing account id 7. -/
def reqMissingTo : CreateTransferRequest :=
  { FromAccountID := 1, ToAccountID := 7, Amount := 10, Currency := "EUR" }

/-- C4 witness: a bound request from existing account 1 to missing account 7
gets NotFound and the example database is unchanged with the store never
called. -/
theorem createTransfer_handler_notFound_witness :
    bindCreateTransfer supEx reqMissingTo ∧
    createTransferHandler supEx dbEx reqMissingTo = (.notFound, dbEx, false) := by
  refine ⟨by decide, ?_⟩
  exact createTransfer_handler_notFound supEx dbEx reqMissingTo (by decide)
    (Or.inr ⟨accA, by decide, rfl, by decide⟩)

/-- C5: the lock/update sequence of a transfer visits the two accounts in
ascending account-id order — the source first exactly when its id is the
smaller — while each account receives the same delta (`-amount` to the
source, `+amount` to the destination) in either order. -/
theorem updateSeq_ascending_order (f t amount : Int) (hne : f ≠ t) :
    (updateSeq f t amount).map Prod.fst = [min f t, max f t] ∧
    (f, -amount) ∈ updateSeq f t amount ∧
    (t, amount) ∈ updateSeq f t amount ∧
    (f < t → updateSeq f t amount = [(f, -amount), (t, amount)]) ∧
    (t < f → updateSeq f t amount = [(t, amount), (f, -amount)]) := by
  rcases lt_or_gt_of_ne hne with hlt | hgt
  · have hmin : min f t = f := min_eq_left hlt.le
    have hmax : max f t = t := max_eq_right hlt.le
    simp [updateSeq, hlt, hmin, hmax, asymm hlt]
  · have hmin : min f t = t := min_eq_right hgt.le
    have hmax : max f t = f := max_eq_left hgt.le
    simp [updateSeq, not_lt_of_gt hgt, hmin, hmax, hgt]

/-- C5 witness: for a transfer from account 5 to account 2, the sequence
locks and updates account 2 first, and 5 still receives -7 while 2 receives
+7. -/
theorem updateSeq_ascending_order_witness :
    (5 : Int) ≠ 2 ∧
    (updateSeq 5 2 7).map Prod.fst = [(2 : Int), 5] ∧
    ((5 : Int), (-7 : Int)) ∈ updateSeq 5 2 7 ∧
    ((2 : Int), (7 : Int)) ∈ updateSeq 5 2 7 := by
  have h := updateSeq_ascending_order 5 2 7 (by decide)
  exact ⟨by decide, by simpa using h.1, h.2.1, h.2.2.1⟩

/-- C6: a successful transfer returns a single aggregate holding all five
parts — the created Transfer row, both updated Accounts as recorded in the
post-operation database, and both created Entry rows. -/
theorem transferMoney_result_aggregate (db : DB) (f t amount : Int)
    (fa ta : Account) (ha : 0 < amount) (hne : f ≠ t)
    (hf : findAccount db f = some fa) (ht : findAccount db t = some ta) :
    ∃ r : TransferTxResult,
      (TransferMoney db f t amount).1 = .ok r ∧
      (TransferMoney db f t amount).2.transfers = db.transfers ++ [r.transfer] ∧
      (TransferMoney db f t amount).2.entries =
        db.entries ++ [r.fromEntry, r.toEntry] ∧
      findAccount (TransferMoney db f t amount).2 f = some r.fromAccount ∧
      findAccount (TransferMoney db f t amount).2 t = some r.toAccount ∧
      r.transfer.FromAccountID = f ∧ r.transfer.ToAccountID = t ∧
      r.transfer.Amount = amount ∧
      r.fromEntry.AccountID = f ∧ r.toEntry.AccountID = t := by
  rw [transferMoney_eq db f t amount fa ta ha hne hf ht]
  refine ⟨_, rfl, rfl, rfl, ?_, ?_, rfl, rfl, rfl, rfl, rfl⟩
  · exact find?_updateSeq_from db.accounts f t amount fa hne hf
  · exact find?_updateSeq_to db.accounts f t amount ta hne ht

/-- C6 witness: the example transfer of 30 from account 1 to account 2
returns the full five-part aggregate. -/
theorem transferMoney_result_aggregate_witness :
    (0 : Int) < 30 ∧ (1 : Int) ≠ 2 ∧
    findAccount dbEx 1 = some accA ∧ findAccount dbEx 2 = some accB ∧
    ∃ r : TransferTxResult,
      (TransferMoney dbEx 1 2 30).1 = .ok r ∧
      (TransferMoney dbEx 1 2 30).2.transfers = dbEx.transfers ++ [r.transfer] ∧
      (TransferMoney dbEx 1 2 30).2.entries =
        dbEx.entries ++ [r.fromEntry, r.toEntry] ∧
      findAccount (TransferMoney dbEx 1 2 30).2 1 = some r.fromAccount ∧
      findAccount (TransferMoney dbEx 1 2 30).2 2 = some r.toAccount ∧
      r.transfer.FromAccountID = 1 ∧ r.transfer.ToAccountID = 2 ∧
      r.transfer.Amount = 30 ∧
      r.fromEntry.AccountID = 1 ∧ r.toEntry.AccountID = 2 := by
  have h := transferMoney_result_aggregate dbEx 1 2 30 accA accB
    (by decide) (by decide) (by decide) (by decide)
  exact ⟨by decide, by decide, by decide, by decide, h⟩

/-- C7: in `ListTranfers`, an omitted (zero) account filter matches any
transfer and a nonzero filter matches exactly its account id: every returned
transfer comes from the table and satisfies both filters, and with the
window wide enough (zero offset, limit at least the table size) a transfer
is returned iff it satisfies both filters. -/
theorem listTranfers_filter_semantics (rows : List Transfer)
    (p : ListTranfersParams) (t : Transfer) :
    (t ∈ ListTranfers rows p → t ∈ rows ∧ matchesProp p t) ∧
    (p.Offset = 0 → rows.length ≤ p.Limit.toNat →
      (t ∈ ListTranfers rows p ↔ t ∈ rows ∧ matchesProp p t)) := by
  have hperm := List.perm_insertionSort transferLE (rows.filter (transferMatches p))
  have forward : t ∈ ListTranfers rows p → t ∈ rows ∧ matchesProp p t := by
    intro hmem
    have h1 := (List.take_sublist _ _).subset hmem
    have h2 := (List.drop_sublist _ _).subset h1
    have h3 := hperm.subset h2
    rw [List.mem_filter] at h3
    exact ⟨h3.1, (transferMatches_iff p t).mp h3.2⟩
  refine ⟨forward, fun hoff hlen => ⟨forward, fun hin => ?_⟩⟩
  have hf : t ∈ rows.filter (transferMatches p) :=
    List.mem_filter.mpr ⟨hin.1, (transferMatches_iff p t).mpr hin.2⟩
  have hs : t ∈ List.insertionSort transferLE (rows.filter (transferMatches p)) :=
    hperm.mem_iff.mpr hf
  have hlen2 :
      (List.insertionSort transferLE (rows.filter (transferMatches p))).length ≤
        p.Limit.toNat := by
    rw [hperm.length_eq]
    exact le_trans (List.length_filter_le _ _) hlen
  unfold ListTranfers
  rw [hoff, Int.toNat_zero, List.drop_zero, List.take_of_length_le hlen2]
  exact hs

/-- Example query parameters: both filters omitted, offset 0, limit 10. -/
def pEx : ListTranfersParams :=
  { FromAccountID := 0, ToAccountID := 0, Limit := 10, Offset := 0 }

/-- Example transfer row, id 1, from account 2 to account 1. -/
def tEx : Transfer := { ID := 1, FromAccountID := 2, ToAccountID := 1, Amount := 7 }

/-- C7 witness: with both filters omitted and a wide window, the example row
is returned exactly because it satisfies both (trivial) filters. -/
theorem listTranfers_filter_semantics_witness :
    pEx.Offset = 0 ∧ rowsEx.length ≤ pEx.Limit.toNat ∧
    tEx ∈ rowsEx ∧ matchesProp pEx tEx ∧
    tEx ∈ ListTranfers rowsEx pEx := by
  have h := (listTranfers_filter_semantics rowsEx pEx tEx).2 rfl (by decide)
  exact ⟨rfl, by decide, by decide, by decide, h.mpr ⟨by decide, by decide⟩⟩

/-- C8 counterexample: the create-user handler classifies errors by the
driver-specific pq error code name — two pq errors differing only in their
driver code name get different statuses, refuting "never by inspecting
driver-specific error detail". -/
theorem createUser_inspects_driver_code :
    (createUserErrorResponse (.pq "unique_validation")).1 ≠
      (createUserErrorResponse (.pq "connection_exception")).1 := by decide

/-- C8 amended: store errors propagate unchanged into the error response,
and classification matches only on the error kind in the transfer handlers;
the create-user handler is the exception: it additionally inspects the
driver-specific pq code name, mapping `unique_validation` to Forbidden and
every other error to Internal. -/
theorem errorKind_classification_amended (n : String) (e : DBError)
    (hn : n ≠ "unique_validation") :
    (createUserErrorResponse e).2 = e ∧
    (getTransferErrorResponse e).2 = e ∧
    (getTransferErrorResponse (.pq n)).1 =
      (getTransferErrorResponse (.pq "unique_validation")).1 ∧
    (createUserErrorResponse (.pq n)).1 = .internalError ∧
    (createUserErrorResponse (.pq "unique_validation")).1 = .forbidden := by
  refine ⟨?_, ?_, rfl, ?_, rfl⟩
  · cases e with
    | noRows => rfl
    | connDone => rfl
    | pq s =>
      by_cases hs : s = "unique_validation" <;> simp [createUserErrorResponse, hs]
  · cases e <;> rfl
  · simp [createUserErrorResponse, hn]

/-- C8 amended witness: a pq error named `connection_exception` maps to
Internal while `unique_validation` maps to Forbidden, and `ErrNoRows`
propagates unchanged. -/
theorem errorKind_classification_amended_witness :
    ("connection_exception" ≠ "unique_validation") ∧
    (createUserErrorResponse (.pq "connection_exception")).1 = .internalError ∧
    (createUserErrorResponse (.pq "unique_validation")).1 = .forbidden ∧
    (getTransferErrorResponse .noRows).2 = .noRows := by
  have h := errorKind_classification_amended "connection_exception" .noRows (by decide)
  exact ⟨by decide, h.2.2.2.1, h.2.2.2.2, h.2.1⟩

/-- Request at the int32 boundary: page_id is the largest value the binding
accepts. -/
def reqOverflow : ListTransfersRequest :=
  { FromAccountID := 0, ToAccountID := 0, PageID := 2147483647, PageSize := 10 }

/-- C9 counterexample: the accepted request with page_id = 2^31 - 1 and
page_size = 10 queries the store with Offset = -20 (the int32 wrap of the
product), not with (page_id - 1) * page_size. -/
theorem listTransfers_offset_wraps :
    bindListTransfers reqOverflow ∧
    (listTransfersHandler [] reqOverflow).2.1 =
      some { FromAccountID := 0, ToAccountID := 0, Limit := 10, Offset := -20 } ∧
    ((2147483647 : Int) - 1) * 10 ≠ -20 := by decide

/-- C9 amended: a list-transfers request is rejected with BadRequest and the
store is never queried unless page_id ≥ 1 and 5 ≤ page_size ≤ 10; an
accepted request queries the store with Limit = page_size and Offset equal
to the signed 32-bit wrap of (page_id - 1) * page_size, which equals the
plain product whenever that product is below 2^31. -/
theorem listTransfers_handler_paging (rows : List Transfer)
    (req : ListTransfersRequest) (hmax : req.PageID ≤ 2 ^ 31 - 1) :
    (¬ bindListTransfers req →
      listTransfersHandler rows req = (.badRequest, none, [])) ∧
    (bindListTransfers req →
      (listTransfersHandler rows req).2.1 =
        some { FromAccountID := req.FromAccountID, ToAccountID := req.ToAccountID,
               Limit := req.PageSize,
               Offset := wrap32 ((req.PageID - 1) * req.PageSize) } ∧
      ((req.PageID - 1) * req.PageSize < 2 ^ 31 →
        wrap32 ((req.PageID - 1) * req.PageSize) =
          (req.PageID - 1) * req.PageSize)) := by
  constructor
  · intro h
    unfold listTransfersHandler
    rw [if_pos h]
  · intro hb
    obtain ⟨h1, h5, h10⟩ := hb
    have hinner : wrap32 (req.PageID - 1) = req.PageID - 1 :=
      wrap32_eq_self _ (by omega) (by omega)
    constructor
    · unfold listTransfersHandler
      rw [if_neg (not_not_intro ⟨h1, h5, h10⟩)]
      show some ({ FromAccountID := req.FromAccountID, ToAccountID := req.ToAccountID,
                   Limit := req.PageSize,
                   Offset := wrap32 (wrap32 (req.PageID - 1) * req.PageSize) } :
              ListTranfersParams) =
        some { FromAccountID := req.FromAccountID, ToAccountID := req.ToAccountID,
               Limit := req.PageSize,
               Offset := wrap32 ((req.PageID - 1) * req.PageSize) }
      rw [hinner]
    · intro hlt
      exact wrap32_eq_self _ (mul_nonneg (by omega) (by omega)) hlt

/-- Small accepted paging request: page 2 of size 7. -/
def reqPage : ListTransfersRequest :=
  { FromAccountID := 3, ToAccountID := 4, PageID := 2, PageSize := 7 }

/-- C9 amended witness: page 2 of size 7 queries the store with limit 7 and
offset 7. -/
theorem listTransfers_handler_paging_witness :
    bindListTransfers reqPage ∧
    (listTransfersHandler rowsEx reqPage).2.1 =
      some { FromAccountID := 3, ToAccountID := 4, Limit := 7, Offset := 7 } := by
  have h := (listTransfers_handler_paging rowsEx reqPage (by decide)).2 (by decide)
  refine ⟨by decide, ?_⟩
  rw [h.1]
  decide

/-- C10: the `ListTranfers` query returns its rows sorted in ascending order
of transfer id, for every combination of filters, limit and offset. -/
theorem listTranfers_sorted_by_id (rows : List Transfer) (p : ListTranfersParams) :
    List.Sorted transferLE (ListTranfers rows p) := by
  unfold ListTranfers
  exact List.Pairwise.sublist
    ((List.take_sublist _ _).trans (List.drop_sublist _ _))
    (List.sorted_insertionSort transferLE _)

end SimpleBank
